import Mathlib

/-!
Verification of the presentation-package content extractor
(`pptxextract/__init__.py`) of the cvagent repository.

The Python module is shallowly embedded below.  Design notes:

* XML documents (the slide parts of the OOXML package) are modelled by the
  inductive `Xml`.  Tags are stored in the canonical prefixed form used by
  the module's fixed namespace map `NS` (for instance `"p:sp"`, `"a:t"`),
  so the qualified-name matching done by `ElementTree` becomes string
  equality on tags.  `ElementTree` exposes fully qualified tags as
  `{uri}local`, and the module recovers the local part with
  `tag.split('}')[-1]`; here that corresponds to taking the part of the
  stored tag after the last colon (`localName`).
* Python exceptions are modelled with `Except Unit`: a slide part whose
  XML cannot be parsed is an `Except.error`, and the one statement of
  `walk_tree` that can raise (`xfrm_rect(None)` when a `p:sp` has no
  `p:spPr`) produces an `Except.error` as well.
* Python string operations (`strip`, `split`, `in`, `endswith`, `int`)
  are re-implemented over `List Char` (`pyStrip`, `pySplit`, …) so that
  every definition evaluates by kernel reduction.
* Machine integers: EMU coordinates are `Int`; Python's floor division
  `//` is `Int.fdiv`.
-/

/-- Python's default whitespace set for `str.strip()`. -/
def isPySpace (c : Char) : Bool :=
  c == ' ' || c == '\t' || c == '\n' || c == '\r' || c == '\x0b' || c == '\x0c'

/-- Python `str.strip()` on a character list: drop whitespace on both ends. -/
def pyStripList (l : List Char) : List Char :=
  ((l.dropWhile isPySpace).reverse.dropWhile isPySpace).reverse

/-- Python `str.strip()`. -/
def pyStrip (s : String) : String :=
  String.mk (pyStripList s.toList)

/-- Splitting a character list at every occurrence of `sep`
(Python `str.split(sep)` for a one-character separator). -/
def pySplitList (sep : Char) : List Char → List (List Char)
  | [] => [[]]
  | c :: rest =>
    let r := pySplitList sep rest
    if c == sep then [] :: r
    else
      match r with
      | h :: t => (c :: h) :: t
      | [] => [[c]]

/-- Python `str.split(sep)` for a one-character separator. -/
def pySplit (sep : Char) (s : String) : List String :=
  (pySplitList sep s.toList).map String.mk

/-- Python `sep in s` for a one-character needle. -/
def pyContains (s : String) (c : Char) : Bool :=
  s.toList.contains c

/-- Does `pat` lead `l`?  Helper for `pyEndsWith`. -/
def leadMatch : List Char → List Char → Bool
  | [], _ => true
  | _ :: _, [] => false
  | p :: ps, c :: cs => p == c && leadMatch ps cs

/-- Python `str.endswith(suffix)`. -/
def pyEndsWith (s suf : String) : Bool :=
  leadMatch suf.toList.reverse s.toList.reverse

/-- Decimal digit accumulation; `none` as soon as a non-digit appears. -/
def digitsToNatAux : Nat → List Char → Option Nat
  | acc, [] => some acc
  | acc, c :: cs =>
    if c.isDigit then digitsToNatAux (acc * 10 + (c.toNat - 48)) cs
    else none

/-- Value of a non-empty all-digit character list. -/
def digitsToNat : List Char → Option Nat
  | [] => none
  | l => digitsToNatAux 0 l

/-- Python `int(s)` for decimal strings: surrounding whitespace and an
optional sign are accepted, anything else raises (modelled as `none`). -/
def pyInt? (s : String) : Option Int :=
  match pyStripList s.toList with
  | [] => none
  | '-' :: ds => (digitsToNat ds).map (fun n => -(n : Int))
  | '+' :: ds => (digitsToNat ds).map (fun n => (n : Int))
  | ds => (digitsToNat ds).map (fun n => (n : Int))

/-- An XML element: prefixed tag, attributes, optional text content, and
child elements in document order. -/
inductive Xml where
  | node (tag : String) (attrs : List (String × String)) (text : Option String)
      (children : List Xml)

/-- Tag of an element. -/
def Xml.tagOf : Xml → String
  | .node t _ _ _ => t

/-- Attribute list of an element. -/
def Xml.attrsOf : Xml → List (String × String)
  | .node _ a _ _ => a

/-- Text content of an element (`Element.text`). -/
def Xml.textOf : Xml → Option String
  | .node _ _ tx _ => tx

/-- Children of an element in document order. -/
def Xml.childrenOf : Xml → List Xml
  | .node _ _ _ cs => cs

/-- The part of a stored tag after the last colon: the local name that the
module extracts with `tag.split('}')[-1]`. -/
def afterLastSep : List Char → List Char
  | [] => []
  | c :: rest =>
    if rest.contains ':' then afterLastSep rest
    else if c == ':' then rest
    else c :: rest

/-- Local name of a prefixed tag (`"p:sp"` becomes `"sp"`). -/
def localName (tag : String) : String :=
  String.mk (afterLastSep tag.toList)

/-- Local name of an element's tag. -/
def Xml.localTag (x : Xml) : String :=
  localName x.tagOf

/-- `Element.attrib.get(name)`. -/
def Xml.attr (x : Xml) (name : String) : Option String :=
  (x.attrsOf.find? (fun p => p.1 == name)).map (fun p => p.2)

/-- Children with the given qualified tag, in document order
(`findall("tag", NS)`). -/
def Xml.childrenNamed (x : Xml) (tag : String) : List Xml :=
  x.childrenOf.filter (fun c => c.tagOf == tag)

/-- First child with the given qualified tag (`find("tag", NS)`). -/
def Xml.findChild (x : Xml) (tag : String) : Option Xml :=
  (x.childrenNamed tag).head?

/-- All proper descendants of an element, in document (preorder) order.
This is what `findall(".//…", NS)` iterates over. -/
def Xml.descendants : Xml → List Xml
  | .node _ _ _ cs => descList cs
where
  descList : List Xml → List Xml
  | [] => []
  | Xml.node t a tx ch :: cs => Xml.node t a tx ch :: descList ch ++ descList cs

/-- Descendants with the given qualified tag (`findall(".//tag", NS)`). -/
def Xml.descNamed (x : Xml) (tag : String) : List Xml :=
  x.descendants.filter (fun c => c.tagOf == tag)

/-- First descendant with the given qualified tag (`find(".//tag", NS)`). -/
def Xml.findDesc (x : Xml) (tag : String) : Option Xml :=
  (x.descNamed tag).head?

/-- First match of the two-step child path `find("t1/t2", NS)`. -/
def Xml.findPath2 (x : Xml) (t1 t2 : String) : Option Xml :=
  ((x.childrenNamed t1).flatMap (fun c => c.childrenNamed t2)).head?

/-- First match of the three-step child path `find("t1/t2/t3", NS)`. -/
def Xml.findPath3 (x : Xml) (t1 t2 t3 : String) : Option Xml :=
  ((x.childrenNamed t1).flatMap (fun c =>
    (c.childrenNamed t2).flatMap (fun d => d.childrenNamed t3))).head?

/-- `EMU_PER_PX = 9525  # 914400 / 96`. -/
def EMU_PER_PX : Int := 9525

/-- `emu_to_px`: `int(v) // EMU_PER_PX`, any exception giving `None`.
`int(None)` raises, an unparsable string raises, and Python's `//` is
floor division (`Int.fdiv`). -/
def emu_to_px : Option String → Option Int
  | none => none
  | some s =>
    match pyInt? s with
    | none => none
    | some n => some (n.fdiv EMU_PER_PX)

/-- Contribution of one direct child of an `a:p` to the collected text:
a run (`a:r`) contributes its `a:t` text when truthy, a line break
(`a:br`) contributes a literal newline. -/
def runPartText (node : Xml) : List String :=
  if node.localTag == "r" then
    match node.findChild ("a:t") with
    | some t =>
      match t.textOf with
      | some s => if s == "" then [] else [s]
      | none => []
    | none => []
  else if node.localTag == "br" then ["\n"]
  else []

/-- `get_text_from_a_p`: join the run texts and explicit line breaks of the
direct children of an `a:p`, then strip. -/
def get_text_from_a_p (a_p : Xml) : String :=
  pyStrip (String.join (a_p.childrenOf.flatMap runPartText))

/-- `get_level_from_a_p`: the `lvl` attribute of `a:pPr` as an int,
defaulting to 0 when the attribute is absent or unparsable. -/
def get_level_from_a_p (a_p : Xml) : Int :=
  match a_p.findChild ("a:pPr") with
  | some pPr =>
    match pPr.attr ("lvl") with
    | some v => (pyInt? v).getD 0
    | none => 0
  | none => 0

/-- `xfrm_rect`: geometry from the first descendant `a:xfrm`'s `a:off` and
`a:ext`, all four components `None` when either is missing. -/
def xfrm_rect (parent : Xml) : Option Int × Option Int × Option Int × Option Int :=
  match parent.findDesc ("a:xfrm") with
  | none => (none, none, none, none)
  | some xfrm =>
    match xfrm.findChild ("a:off"), xfrm.findChild ("a:ext") with
    | some off, some ext =>
      (emu_to_px (off.attr ("x")), emu_to_px (off.attr ("y")),
       emu_to_px (ext.attr ("cx")), emu_to_px (ext.attr ("cy")))
    | _, _ => (none, none, none, none)

/-- `smartart_texts`: every truthy `a:t` text in the diagram subtree,
stripped. -/
def smartart_texts (graphicData : Xml) : List String :=
  (graphicData.descNamed ("a:t")).filterMap (fun t =>
    match t.textOf with
    | none => none
    | some s =>
      if s == "" then none
      else if pyStrip s == "" then none
      else some (pyStrip s))

/-- An extracted content block.  The constructors mirror the two dict
shapes appended to `blocks` by `walk_tree`: `{"type":"paragraph","slide":…,
"x":…,"y":…,"w":…,"h":…,"level":…,"text":…}` and `{"type":"table",
"slide":…,"x":…,"y":…,"w":…,"h":…,"rows":…}`. -/
inductive Block where
  | paragraph (slide : Nat) (x y w h : Option Int) (level : Int) (text : String)
  | table (slide : Nat) (x y w h : Option Int) (rows : List (List String))
deriving DecidableEq

/-- Keys of the paragraph block dict, in insertion order. -/
def paragraphKeys : List String :=
  ["type", "slide", "x", "y", "w", "h", "level", "text"]

/-- Keys of the table block dict, in insertion order. -/
def tableKeys : List String :=
  ["type", "slide", "x", "y", "w", "h", "rows"]

/-- Serialization keys of a block dict. -/
def Block.keys : Block → List String
  | .paragraph .. => paragraphKeys
  | .table .. => tableKeys

/-- Slide index stored in a block. -/
def Block.slideIdx : Block → Nat
  | .paragraph s _ _ _ _ _ _ => s
  | .table s _ _ _ _ _ => s

/-- `x` field of a block. -/
def Block.xOpt : Block → Option Int
  | .paragraph _ x _ _ _ _ _ => x
  | .table _ x _ _ _ _ => x

/-- `y` field of a block. -/
def Block.yOpt : Block → Option Int
  | .paragraph _ _ y _ _ _ _ => y
  | .table _ _ y _ _ _ => y

/-- The reassignment `b["slide"] = idx` done in `parse_pptx_bytes`. -/
def Block.setSlide (i : Nat) : Block → Block
  | .paragraph _ x y w h l t => .paragraph i x y w h l t
  | .table _ x y w h r => .table i x y w h r

/-- Python `x or 0` on an optional int (`None` and `0` are falsy). -/
def orZero (o : Option Int) : Int :=
  o.getD 0

/-- Group transform offset of a `p:grpSp` child: the `a:off` of
`p:grpSpPr/a:xfrm`, each component `emu_to_px(...) or 0`, and `(0, 0)`
when the transform or offset element is absent. -/
def grpOffset (child : Xml) : Int × Int :=
  match child.findPath2 ("p:grpSpPr") ("a:xfrm") with
  | none => (0, 0)
  | some grp =>
    match grp.findChild ("a:off") with
    | none => (0, 0)
    | some off => (orZero (emu_to_px (off.attr ("x"))), orZero (emu_to_px (off.attr ("y"))))

/-- The `p:sp` branch of `walk_tree`: one paragraph block per non-empty
paragraph of the shape's `p:txBody`.  A `p:sp` without `p:spPr` makes the
Python code call `xfrm_rect(None)`, which raises `AttributeError`;
that is the `Except.error` case. -/
def spBlocks (child : Xml) (gx gy : Int) (idx : Nat) : Except Unit (List Block) :=
  match child.findChild ("p:spPr") with
  | none => .error ()
  | some spPr =>
    let r := xfrm_rect spPr
    let x := r.1.map (fun v => v + gx)
    let y := r.2.1.map (fun v => v + gy)
    match child.findChild ("p:txBody") with
    | none => .ok []
    | some tx =>
      .ok ((tx.childrenNamed ("a:p")).filterMap (fun a_p =>
        let txt := get_text_from_a_p a_p
        if txt == "" then none
        else some (Block.paragraph idx x y r.2.2.1 r.2.2.2 (get_level_from_a_p a_p) txt)))

/-- Cell text collection for one `a:tc`: the non-empty paragraph texts of
its `a:txBody`. -/
def cellTexts (a_tc : Xml) : List String :=
  match a_tc.findChild ("a:txBody") with
  | none => []
  | some txBody =>
    (txBody.childrenNamed ("a:p")).filterMap (fun a_p =>
      let t := get_text_from_a_p a_p
      if t == "" then none else some t)

/-- Table rows as collected by the `a:tbl` branch: one entry per `a:tr`,
each cell the space-join of its paragraph texts, stripped. -/
def tableRows (tbl : Xml) : List (List String) :=
  (tbl.childrenNamed ("a:tr")).map (fun a_tr =>
    (a_tr.childrenNamed ("a:tc")).map (fun a_tc =>
      pyStrip (String.intercalate (" ") (cellTexts a_tc))))

/-- Python `a or b` for optional strings (`None` and `""` are falsy). -/
def pyOrStr (a b : Option String) : Option String :=
  match a with
  | some s => if s == "" then b else some s
  | none => b

/-- The `p:graphicFrame` branch of `walk_tree`: a table block when a
descendant `a:tbl` exists; otherwise SmartArt texts when the
`a:graphic/a:graphicData` URI ends with `/diagram`; otherwise paragraphs
from a directly embedded `a:txBody`, if any. -/
def frameBlocks (child : Xml) (gx gy : Int) (idx : Nat) : List Block :=
  let r := xfrm_rect child
  let x := r.1.map (fun v => v + gx)
  let y := r.2.1.map (fun v => v + gy)
  let viaTx : List Block :=
    match child.findDesc ("a:txBody") with
    | none => []
    | some tx =>
      (tx.childrenNamed ("a:p")).filterMap (fun a_p =>
        let t := get_text_from_a_p a_p
        if t == "" then none
        else some (Block.paragraph idx x y r.2.2.1 r.2.2.2 0 t))
  match child.findDesc ("a:tbl") with
  | some tbl => [Block.table idx x y r.2.2.1 r.2.2.2 (tableRows tbl)]
  | none =>
    match child.findPath2 ("a:graphic") ("a:graphicData") with
    | none => viaTx
    | some g =>
      match pyOrStr (g.attr ("r:uri")) (g.attr ("uri")) with
      | none => viaTx
      | some u =>
        if u != "" && pyEndsWith u ("/diagram") then
          (smartart_texts g).filterMap (fun t =>
            if t == "" then none
            else some (Block.paragraph idx x y r.2.2.1 r.2.2.2 1 t))
        else viaTx

/-- `walk_tree`, written over the child list of the node being walked
(the Python function iterates `list(node)`).  `gx`, `gy` accumulate group
offsets; blocks are returned in the order they are appended. -/
def walk_tree : List Xml → Int → Int → Nat → Except Unit (List Block)
  | [], _, _, _ => .ok []
  | Xml.node t attrs tx ch :: rest, gx, gy, slide_idx =>
    let child := Xml.node t attrs tx ch
    if localName t == "grpSp" then do
      let add := grpOffset child
      let inner ← walk_tree ch (gx + add.1) (gy + add.2) slide_idx
      let more ← walk_tree rest gx gy slide_idx
      .ok (inner ++ more)
    else if localName t == "sp" then do
      let here ← spBlocks child gx gy slide_idx
      let more ← walk_tree rest gx gy slide_idx
      .ok (here ++ more)
    else if localName t == "graphicFrame" then do
      let more ← walk_tree rest gx gy slide_idx
      .ok (frameBlocks child gx gy slide_idx ++ more)
    else
      walk_tree rest gx gy slide_idx

example : walk_tree [] 0 0 1 = .ok [] := by simp [walk_tree]

/-- Is the shape an explicit title placeholder?  True when
`p:nvSpPr/p:nvPr/p:ph` exists and its `type` attribute is `title` or
`ctrTitle`. -/
def isTitlePlaceholder (sp : Xml) : Bool :=
  match sp.findPath3 ("p:nvSpPr") ("p:nvPr") ("p:ph") with
  | none => false
  | some ph =>
    match ph.attr ("type") with
    | some ty => ty == "title" || ty == "ctrTitle"
    | none => false

/-- Title text of a placeholder's `p:txBody`: the space-join of the
non-empty texts of all descendant `a:p`, stripped. -/
def titleTextOf (tx : Xml) : String :=
  pyStrip (String.intercalate (" ") ((tx.descNamed ("a:p")).filterMap (fun a_p =>
    let t := get_text_from_a_p a_p
    if t == "" then none else some t)))

/-- The title loop of `parse_slide_xml`: scan the `p:sp` list in document
order; at the first title/ctrTitle placeholder that has a `p:txBody`,
compute the title and break; a matching placeholder without a `p:txBody`
does not break the loop. -/
def titleLoop : List Xml → String
  | [] => ""
  | sp :: rest =>
    if isTitlePlaceholder sp then
      match sp.findChild ("p:txBody") with
      | some tx => titleTextOf tx
      | none => titleLoop rest
    else titleLoop rest

/-- Slide title: the title loop over all descendant `p:sp` elements. -/
def slideTitle (root : Xml) : String :=
  titleLoop (root.descNamed ("p:sp"))

/-- `root.find(".//p:cSld/p:spTree", NS)`. -/
def findSpTree (root : Xml) : Option Xml :=
  ((root.descNamed ("p:cSld")).flatMap (fun c => c.childrenNamed ("p:spTree"))).head?

/-- `parse_slide_xml`: parse the slide part (a parse failure propagates as
an exception), extract the title, then walk the shape tree. -/
def parse_slide_xml (parsed : Except Unit Xml) (idx : Nat) :
    Except Unit (String × List Block) := do
  let root ← parsed
  let blocks ←
    match findSpTree root with
    | some spTree => walk_tree spTree.childrenOf 0 0 idx
    | none => .ok []
  .ok (slideTitle root, blocks)

/-- The zipped package after part enumeration: the slide parts' parse
outcomes in sorted part order, and for each 1-based slide index the parse
outcome of `ppt/notesSlides/notesSlide{idx}.xml` (`none` when the member
is missing, in which case `zf.open` raises `KeyError`). -/
structure Package where
  slides : List (Except Unit Xml)
  notes : Nat → Option (Except Unit Xml)

/-- Notes text: the newline-join of the non-empty texts of all descendant
`a:p` of the notes part, stripped. -/
def notesText (root : Xml) : String :=
  pyStrip (String.intercalate ("\n") ((root.descNamed ("a:p")).filterMap (fun a_p =>
    let t := get_text_from_a_p a_p
    if t == "" then none else some t)))

/-- `parse_notes_xml`: total.  A missing notes member (`KeyError`) and a
notes part whose XML cannot be parsed (`except Exception`) both yield the
empty string. -/
def parse_notes_xml (pkg : Package) (idx : Nat) : String :=
  match pkg.notes idx with
  | none => ""
  | some (.error _) => ""
  | some (.ok root) => notesText root

/-- One entry of the `slides_meta` list:
`{"slide": idx, "title": title, "notes": notes}`. -/
structure SlideMeta where
  slide : Nat
  title : String
  notes : String
deriving DecidableEq

/-- The per-slide loop of `parse_pptx_bytes`: slide parts are processed
in order with 1-based indices; each slide's parse failure propagates;
blocks get `b["slide"] = idx` reassigned and are collected in order. -/
def extractSlides (pkg : Package) : List (Except Unit Xml) → Nat →
    Except Unit (List SlideMeta × List Block)
  | [], _ => .ok ([], [])
  | s :: rest, idx => do
    let tb ← parse_slide_xml s idx
    let blocks := tb.2.map (Block.setSlide idx)
    let notes := parse_notes_xml pkg idx
    let tail ← extractSlides pkg rest (idx + 1)
    .ok (⟨idx, tb.1, notes⟩ :: tail.1, blocks ++ tail.2)

/-- Sort key of `all_blocks.sort(key=lambda b: (b["slide"], b.get("y") or 0,
b.get("x") or 0))`: Python's `or 0` maps both `None` and `0` to `0`. -/
def blockKey (b : Block) : Nat × Int × Int :=
  (b.slideIdx, orZero b.yOpt, orZero b.xOpt)

/-- Python's lexicographic tuple comparison on block keys, as a Bool. -/
def keyLe (a b : Block) : Bool :=
  decide ((blockKey a).1 < (blockKey b).1) ||
    ((blockKey a).1 == (blockKey b).1 &&
      (decide ((blockKey a).2.1 < (blockKey b).2.1) ||
        ((blockKey a).2.1 == (blockKey b).2.1 &&
          decide ((blockKey a).2.2 ≤ (blockKey b).2.2))))

/-- The `all_blocks.sort(...)` step.  CPython's `list.sort` is a stable
sort by the key above; `List.mergeSort` with the same total preorder is
the stable sort, hence extensionally identical. -/
def sortBlocks (l : List Block) : List Block :=
  l.mergeSort keyLe

/-- One whole-document slide header line: `f"--- Slide {n} ---"`. -/
def slideHeader (n : Nat) : String :=
  "--- Slide " ++ toString n ++ " ---"

/-- `bullet = "• " if lvl > 0 else ""`. -/
def bulletOf (lvl : Int) : String :=
  if lvl > 0 then "• " else ""

/-- `indent = "  " * max(0, lvl - 1)`. -/
def indentOf (lvl : Int) : String :=
  String.join (List.replicate (max 0 (lvl - 1)).toNat ("  "))

/-- The notes line: `"[NOTES] " + notes`. -/
def notesLine (notes : String) : String :=
  "[NOTES] " ++ notes

/-- `b["text"].split("\n") if "\n" in b["text"] else [b["text"]]`. -/
def paragraphSegs (text : String) : List String :=
  if pyContains text '\n' then pySplit '\n' text else [text]

/-- Body of the paragraph segment loop of `build_raw_text`: strip the
segment, skip it when empty, otherwise append one indented, possibly
bulleted line. -/
def segFold (level : Int) (a2 : List String) (seg : String) : List String :=
  let sg := pyStrip seg
  if sg == "" then a2
  else a2 ++ [indentOf level ++ bulletOf level ++ sg]

/-- Body of the table row loop of `build_raw_text`: append the pipe-join
of the row's non-empty cells. -/
def rowFold (a2 : List String) (row : List String) : List String :=
  a2 ++ [String.intercalate (" | ") (row.filter (fun c => c != ""))]

/-- Body of the per-block loop of `build_raw_text`: paragraphs run the
segment loop over their newline segments, tables run the row loop. -/
def blockFold (a : List String) (b : Block) : List String :=
  match b with
  | Block.paragraph _ _ _ _ _ level text => (paragraphSegs text).foldl (segFold level) a
  | Block.table _ _ _ _ _ rows => rows.foldl rowFold a

/-- Body of the per-slide loop of `build_raw_text`: append the header
line, the title when truthy, the lines of the slide's blocks, and the
`[NOTES] ` line when the notes are truthy. -/
def slideFold (blocks : List Block) (acc : List String) (s : SlideMeta) : List String :=
  let acc1 := acc ++ [slideHeader s.slide]
  let acc2 := if s.title != "" then acc1 ++ [s.title] else acc1
  let acc3 := (blocks.filter (fun bb => bb.slideIdx == s.slide)).foldl blockFold acc2
  let acc4 := if s.notes != "" then acc3 ++ [notesLine s.notes] else acc3
  acc4

/-- `build_raw_text`, translated appending line by line exactly as the
Python loops do (the loop bodies are the named folds above). -/
def build_raw_text (slides_meta : List SlideMeta) (blocks : List Block) : String :=
  String.intercalate ("\n") (slides_meta.foldl (slideFold blocks) [])

/-- The result object of `parse_pptx_bytes`:
`{"slides": slides_meta, "blocks": all_blocks, "raw_text": raw_text}`. -/
structure Output where
  slides : List SlideMeta
  blocks : List Block
  raw_text : String
deriving DecidableEq

/-- Serialization keys of the result dict, in insertion order. -/
def outputKeys : List String :=
  ["slides", "blocks", "raw_text"]

/-- `parse_pptx_bytes` over an enumerated package: process every slide in
order (any slide failure propagates), sort all blocks, build the raw
text. -/
def parse_pptx_bytes (pkg : Package) : Except Unit Output := do
  let sm ← extractSlides pkg pkg.slides 1
  let all_blocks := sortBlocks sm.2
  .ok ⟨sm.1, all_blocks, build_raw_text sm.1 all_blocks⟩

/-- C7: the length-unit conversion divides by the fixed constant 9525
(`EMU_PER_PX`) and rounds down, never up: `emu_to_px` maps `"9525"` to 1
and `"0"` to 0, every successfully parsed value `m` to `m.fdiv 9525` with
`9525 * result ≤ m`, and the conversion is monotonic non-decreasing in
the parsed value. -/
theorem emu_to_px_truncates :
    emu_to_px (some ("9525")) = some 1
  ∧ emu_to_px (some ("0")) = some 0
  ∧ (∀ s m, pyInt? s = some m →
      emu_to_px (some s) = some (m.fdiv EMU_PER_PX) ∧ EMU_PER_PX * m.fdiv EMU_PER_PX ≤ m)
  ∧ (∀ m n : Int, m ≤ n → m.fdiv EMU_PER_PX ≤ n.fdiv EMU_PER_PX) := by
  refine ⟨by decide, by decide, fun s m h => ⟨by simp [emu_to_px, h], ?_⟩, fun m n h => ?_⟩
  · rw [Int.fdiv_eq_ediv _ (by decide : (0 : Int) ≤ EMU_PER_PX), Int.mul_comm]
    exact Int.ediv_mul_le m (by decide : EMU_PER_PX ≠ 0)
  · rw [Int.fdiv_eq_ediv _ (by decide : (0 : Int) ≤ EMU_PER_PX),
      Int.fdiv_eq_ediv _ (by decide : (0 : Int) ≤ EMU_PER_PX)]
    exact Int.ediv_le_ediv (by decide) h

/-- Witness for C7 at concrete inputs. -/
theorem emu_to_px_truncates_witness :
    (emu_to_px (some ("19050")) = some (Int.fdiv 19050 EMU_PER_PX)
      ∧ EMU_PER_PX * Int.fdiv 19050 EMU_PER_PX ≤ 19050)
  ∧ Int.fdiv 9525 EMU_PER_PX ≤ Int.fdiv 19050 EMU_PER_PX :=
  ⟨emu_to_px_truncates.2.2.1 ("19050") 19050 (by decide),
   emu_to_px_truncates.2.2.2 9525 19050 (by decide)⟩

/-- C10: notes extraction is total.  A missing notes part (`KeyError` on
`zf.open`) and a notes part whose XML cannot be parsed both yield the
empty string, and a parsed part yields its stripped newline-joined
paragraph texts; the notes value is a `String` in every case. -/
theorem parse_notes_xml_total (pkg : Package) (idx : Nat) :
    (pkg.notes idx = none → parse_notes_xml pkg idx = "")
  ∧ (∀ e : Unit, pkg.notes idx = some (.error e) → parse_notes_xml pkg idx = "")
  ∧ (∀ root, pkg.notes idx = some (.ok root) → parse_notes_xml pkg idx = notesText root) :=
  ⟨fun h => by simp [parse_notes_xml, h],
   fun e h => by simp [parse_notes_xml, h],
   fun root h => by simp [parse_notes_xml, h]⟩

/-- A package with a missing notes part at index 1 and an unparsable one
at index 2. -/
def pkgNotesW : Package :=
  ⟨[], fun i => if i = 1 then none else some (.error ())⟩

/-- Witness for C10 at concrete inputs. -/
theorem parse_notes_xml_total_witness :
    parse_notes_xml pkgNotesW 1 = "" ∧ parse_notes_xml pkgNotesW 2 = "" :=
  ⟨(parse_notes_xml_total pkgNotesW 1).1 rfl,
   (parse_notes_xml_total pkgNotesW 2).2.1 () rfl⟩

theorem localName_grpSp : localName ("p:grpSp") = "grpSp" := rfl

theorem localName_grpSpPr : localName ("p:grpSpPr") = "grpSpPr" := rfl

theorem localName_sp : localName ("p:sp") = "sp" := rfl

theorem localName_spPr : localName ("p:spPr") = "spPr" := rfl

theorem localName_txBody : localName ("p:txBody") = "txBody" := rfl

theorem localName_graphicFrame : localName ("p:graphicFrame") = "graphicFrame" := rfl

/-- A group shape element whose transform offset holds the attribute
strings `ox`, `oy`, with the given member shapes. -/
def groupNode (ox oy : String) (members : List Xml) : Xml :=
  Xml.node ("p:grpSp") [] none
    (Xml.node ("p:grpSpPr") [] none
      [Xml.node ("a:xfrm") [] none
        [Xml.node ("a:off") [("x", ox), ("y", oy)] none []]] :: members)

/-- A text shape with offset strings `(sx, sy)`, extent strings
`(scx, scy)` and one paragraph holding one run with text `txt`. -/
def spNode (sx sy scx scy txt : String) : Xml :=
  Xml.node ("p:sp") [] none
    [Xml.node ("p:spPr") [] none
      [Xml.node ("a:xfrm") [] none
        [Xml.node ("a:off") [("x", sx), ("y", sy)] none [],
         Xml.node ("a:ext") [("cx", scx), ("cy", scy)] none []]],
     Xml.node ("p:txBody") [] none
      [Xml.node ("a:p") [] none
        [Xml.node ("a:r") [] none
          [Xml.node ("a:t") [] (some txt) []]]]]

/-- A shape wrapped into one group per offset pair, outermost first. -/
def nestGroups : List (String × String) → Xml → Xml
  | [], inner => inner
  | (ox, oy) :: rest, inner => groupNode ox oy [nestGroups rest inner]

/-- Sum of the resolved x offsets of a group chain, as `walk_tree`
accumulates them (`emu_to_px(...) or 0` per group). -/
def offsSumX : List (String × String) → Int
  | [] => 0
  | (ox, _) :: rest => orZero (emu_to_px (some ox)) + offsSumX rest

/-- Sum of the resolved y offsets of a group chain. -/
def offsSumY : List (String × String) → Int
  | [] => 0
  | (_, oy) :: rest => orZero (emu_to_px (some oy)) + offsSumY rest

theorem nestGroups_tag_ne_grpSpPr (offs : List (String × String))
    (sx sy scx scy txt : String) :
    ((nestGroups offs (spNode sx sy scx scy txt)).tagOf == "p:grpSpPr") = false := by
  cases offs with
  | nil => simp [nestGroups, spNode, Xml.tagOf]
  | cons p rest => obtain ⟨a, b⟩ := p; simp [nestGroups, groupNode, Xml.tagOf]


theorem walk_tree_nil (gx gy : Int) (idx : Nat) :
    walk_tree [] gx gy idx = .ok [] := by
  simp [walk_tree]

/-- Step lemma: the `grpSp` branch of `walk_tree`. -/
theorem walk_tree_grpSp (t : String) (attrs : List (String × String))
    (tx : Option String) (ch rest : List Xml) (gx gy : Int) (idx : Nat)
    (h : localName t = "grpSp") :
    walk_tree (Xml.node t attrs tx ch :: rest) gx gy idx = (do
      let inner ← walk_tree ch (gx + (grpOffset (Xml.node t attrs tx ch)).1)
          (gy + (grpOffset (Xml.node t attrs tx ch)).2) idx
      let more ← walk_tree rest gx gy idx
      .ok (inner ++ more)) := by
  rw [walk_tree]
  simp [h]

/-- Step lemma: the `sp` branch of `walk_tree`. -/
theorem walk_tree_sp (t : String) (attrs : List (String × String))
    (tx : Option String) (ch rest : List Xml) (gx gy : Int) (idx : Nat)
    (h : localName t = "sp") :
    walk_tree (Xml.node t attrs tx ch :: rest) gx gy idx = (do
      let here ← spBlocks (Xml.node t attrs tx ch) gx gy idx
      let more ← walk_tree rest gx gy idx
      .ok (here ++ more)) := by
  rw [walk_tree]
  simp [h]

/-- Step lemma: the `graphicFrame` branch of `walk_tree`. -/
theorem walk_tree_graphicFrame (t : String) (attrs : List (String × String))
    (tx : Option String) (ch rest : List Xml) (gx gy : Int) (idx : Nat)
    (h : localName t = "graphicFrame") :
    walk_tree (Xml.node t attrs tx ch :: rest) gx gy idx = (do
      let more ← walk_tree rest gx gy idx
      .ok (frameBlocks (Xml.node t attrs tx ch) gx gy idx ++ more)) := by
  rw [walk_tree]
  simp [h]

/-- Step lemma: any other child is skipped by `walk_tree`. -/
theorem walk_tree_skip (t : String) (attrs : List (String × String))
    (tx : Option String) (ch rest : List Xml) (gx gy : Int) (idx : Nat)
    (h1 : localName t ≠ "grpSp") (h2 : localName t ≠ "sp")
    (h3 : localName t ≠ "graphicFrame") :
    walk_tree (Xml.node t attrs tx ch :: rest) gx gy idx
      = walk_tree rest gx gy idx := by
  rw [walk_tree]
  simp [h1, h2, h3]

/-- Walking a chain of groups adds the sum of the chain's resolved
offsets to the accumulated offset before the inner shape is visited. -/
theorem walk_tree_nestGroups (offs : List (String × String))
    (sx sy scx scy txt : String) (gx gy : Int) (idx : Nat) :
    walk_tree [nestGroups offs (spNode sx sy scx scy txt)] gx gy idx
      = walk_tree [spNode sx sy scx scy txt]
          (gx + offsSumX offs) (gy + offsSumY offs) idx := by
  induction offs generalizing gx gy with
  | nil => simp [nestGroups, offsSumX, offsSumY]
  | cons p rest ih =>
    obtain ⟨ox, oy⟩ := p
    rw [nestGroups, offsSumX, offsSumY]
    rw [show groupNode ox oy [nestGroups rest (spNode sx sy scx scy txt)]
        = Xml.node ("p:grpSp") [] none
            (Xml.node ("p:grpSpPr") [] none
              [Xml.node ("a:xfrm") [] none
                [Xml.node ("a:off") [("x", ox), ("y", oy)] none []]]
              :: [nestGroups rest (spNode sx sy scx scy txt)]) from rfl]
    rw [walk_tree_grpSp ("p:grpSp") _ _ _ _ _ _ _ rfl]
    have hoff : grpOffset (Xml.node ("p:grpSp") [] none
        (Xml.node ("p:grpSpPr") [] none
          [Xml.node ("a:xfrm") [] none
            [Xml.node ("a:off") [("x", ox), ("y", oy)] none []]]
          :: [nestGroups rest (spNode sx sy scx scy txt)]))
        = (orZero (emu_to_px (some ox)), orZero (emu_to_px (some oy))) := by
      simp [grpOffset, Xml.findPath2, Xml.childrenNamed, Xml.childrenOf, Xml.tagOf,
        nestGroups_tag_ne_grpSpPr, Xml.findChild, Xml.attr, Xml.attrsOf]
    rw [show (grpOffset (Xml.node ("p:grpSp") [] none
        (Xml.node ("p:grpSpPr") [] none
          [Xml.node ("a:xfrm") [] none
            [Xml.node ("a:off") [("x", ox), ("y", oy)] none []]]
          :: [nestGroups rest (spNode sx sy scx scy txt)]))).1
        = orZero (emu_to_px (some ox)) from by rw [hoff]]
    rw [show (grpOffset (Xml.node ("p:grpSp") [] none
        (Xml.node ("p:grpSpPr") [] none
          [Xml.node ("a:xfrm") [] none
            [Xml.node ("a:off") [("x", ox), ("y", oy)] none []]]
          :: [nestGroups rest (spNode sx sy scx scy txt)]))).2
        = orZero (emu_to_px (some oy)) from by rw [hoff]]
    rw [walk_tree_skip ("p:grpSpPr") _ _ _ _ _ _ _ (by decide) (by decide) (by decide)]
    rw [ih (gx + orZero (emu_to_px (some ox))) (gy + orZero (emu_to_px (some oy)))]
    rw [walk_tree_nil]
    rw [← Int.add_assoc gx (orZero (emu_to_px (some ox))) (offsSumX rest),
        ← Int.add_assoc gy (orZero (emu_to_px (some oy))) (offsSumY rest)]
    rcases hw : walk_tree [spNode sx sy scx scy txt]
        (gx + orZero (emu_to_px (some ox)) + offsSumX rest)
        (gy + orZero (emu_to_px (some oy)) + offsSumY rest) idx with e | bs
    · rfl
    · show Except.ok (bs ++ []) = Except.ok bs
      rw [List.append_nil]

theorem localName_ar : localName ("a:r") = "r" := rfl

/-- Evaluating `walk_tree` on a single text shape: the shape's resolved
offset is the parsed local offset plus the accumulated group offset. -/
theorem walk_tree_spNode (sx sy scx scy txt : String) (gx gy : Int) (idx : Nat) :
    walk_tree [spNode sx sy scx scy txt] gx gy idx
      = .ok (if pyStrip txt == "" then []
             else [Block.paragraph idx ((emu_to_px (some sx)).map (fun v => v + gx))
                   ((emu_to_px (some sy)).map (fun v => v + gy))
                   (emu_to_px (some scx)) (emu_to_px (some scy)) 0 (pyStrip txt)]) := by
  rw [show spNode sx sy scx scy txt
      = Xml.node ("p:sp") [] none
          [Xml.node ("p:spPr") [] none
            [Xml.node ("a:xfrm") [] none
              [Xml.node ("a:off") [("x", sx), ("y", sy)] none [],
               Xml.node ("a:ext") [("cx", scx), ("cy", scy)] none []]],
           Xml.node ("p:txBody") [] none
            [Xml.node ("a:p") [] none
              [Xml.node ("a:r") [] none
                [Xml.node ("a:t") [] (some txt) []]]]] from rfl]
  rw [walk_tree_sp ("p:sp") _ _ _ _ _ _ _ rfl, walk_tree_nil]
  have hps : pyStrip ("") = "" := rfl
  by_cases h : txt = ""
  · subst h
    simp [spBlocks, Xml.findChild, Xml.childrenNamed, Xml.childrenOf, Xml.tagOf,
      xfrm_rect, Xml.findDesc, Xml.descNamed, Xml.descendants, Xml.descendants.descList,
      get_text_from_a_p, runPartText, Xml.localTag, localName_ar, get_level_from_a_p,
      Xml.attr, Xml.attrsOf, Xml.textOf, Except.bind, List.filterMap_cons,
      List.filterMap_nil, String.join, hps]
    rfl
  · have hb : (txt == "") = false := by simp [h]
    by_cases hc : pyStrip txt = ""
    · simp [spBlocks, Xml.findChild, Xml.childrenNamed, Xml.childrenOf, Xml.tagOf,
        xfrm_rect, Xml.findDesc, Xml.descNamed, Xml.descendants, Xml.descendants.descList,
        get_text_from_a_p, runPartText, Xml.localTag, localName_ar, get_level_from_a_p,
        Xml.attr, Xml.attrsOf, Xml.textOf, Except.bind, List.filterMap_cons,
        List.filterMap_nil, String.join, hb, hc]
      rfl
    · simp [spBlocks, Xml.findChild, Xml.childrenNamed, Xml.childrenOf, Xml.tagOf,
        xfrm_rect, Xml.findDesc, Xml.descNamed, Xml.descendants, Xml.descendants.descList,
        get_text_from_a_p, runPartText, Xml.localTag, localName_ar, get_level_from_a_p,
        Xml.attr, Xml.attrsOf, Xml.textOf, Except.bind, List.filterMap_cons,
        List.filterMap_nil, String.join, hb, hc]
      rfl

/-- C6: for a text shape nested inside N groups, the resolved absolute
offset produced by `walk_tree` equals the sum of all N ancestor group
offsets (each `emu_to_px(off) or 0`) plus the shape's own parsed local
offset, composed on top of any accumulated offset `(gx, gy)`. -/
theorem nested_shape_offset_composes (offs : List (String × String))
    (sx sy scx scy txt : String) (gx gy : Int) (idx : Nat)
    (h : pyStrip txt ≠ "") :
    walk_tree [nestGroups offs (spNode sx sy scx scy txt)] gx gy idx
      = .ok [Block.paragraph idx
              ((emu_to_px (some sx)).map (fun v => v + (gx + offsSumX offs)))
              ((emu_to_px (some sy)).map (fun v => v + (gy + offsSumY offs)))
              (emu_to_px (some scx)) (emu_to_px (some scy)) 0 (pyStrip txt)] := by
  rw [walk_tree_nestGroups, walk_tree_spNode]
  simp [h]

/-- Witness for C6 at the spec's example: group offsets (10,0), (0,5),
(3,3) px and local offset (1,1) px (given in EMU) resolve to (14,9). -/
theorem nested_shape_offset_composes_witness :
    walk_tree [nestGroups [("95250", "0"), ("0", "47625"), ("28575", "28575")]
        (spNode ("9525") ("9525") ("9525") ("9525") ("hi"))] 0 0 1
      = .ok [Block.paragraph 1 (some 14) (some 9) (some 1) (some 1) 0 ("hi")] := by
  have h := nested_shape_offset_composes
      [("95250", "0"), ("0", "47625"), ("28575", "28575")]
      ("9525") ("9525") ("9525") ("9525") ("hi") 0 0 1 (by decide)
  rw [h]
  congr 1

/-- Resolved (top, left) of a block, with the `or 0` coercion the sort
key applies. -/
def topLeftOf (b : Block) : Int × Int :=
  (orZero b.yOpt, orZero b.xOpt)

/-- Strict-then-tie ordering on (top, left) pairs. -/
def pairLe (p q : Int × Int) : Prop :=
  p.1 < q.1 ∨ (p.1 = q.1 ∧ p.2 ≤ q.2)

theorem keyLe_total (a b : Block) : keyLe a b || keyLe b a := by
  simp only [keyLe, Bool.or_eq_true, decide_eq_true_eq, Bool.and_eq_true, beq_iff_eq]
  omega

theorem keyLe_trans (a b c : Block) : keyLe a b → keyLe b c → keyLe a c := by
  simp only [keyLe, Bool.or_eq_true, decide_eq_true_eq, Bool.and_eq_true, beq_iff_eq]
  omega

theorem keyLe_of_eq {a b : Block} (h : blockKey a = blockKey b) :
    keyLe a b = true := by
  simp [keyLe, h]

theorem pairwise_keyLe_filter (l : List Block) (k : Nat × Int × Int) :
    (l.filter (fun b => blockKey b == k)).Pairwise (fun a b => keyLe a b = true) := by
  refine List.pairwise_of_forall_mem_list (fun a ha b hb => ?_)
  have h1 : blockKey a = k := by simpa using List.of_mem_filter ha
  have h2 : blockKey b = k := by simpa using List.of_mem_filter hb
  exact keyLe_of_eq (h1.trans h2.symm)

/-- C9: the `all_blocks.sort` step is a permutation of the collected
blocks; within every slide the result is ordered by resolved (top, left)
ascending (ties on top broken by left); and blocks with identical sort
keys keep their first-encountered relative order (stability). -/
theorem sortBlocks_spec (l : List Block) :
    (sortBlocks l).Perm l
  ∧ (∀ i : Nat, ((sortBlocks l).filter (fun b => b.slideIdx == i)).Pairwise
      (fun a b => pairLe (topLeftOf a) (topLeftOf b)))
  ∧ (∀ k : Nat × Int × Int, (sortBlocks l).filter (fun b => blockKey b == k)
      = l.filter (fun b => blockKey b == k)) := by
  refine ⟨List.mergeSort_perm l keyLe, fun i => ?_, fun k => ?_⟩
  · have hp : (sortBlocks l).Pairwise (fun a b => keyLe a b = true) :=
      List.sorted_mergeSort keyLe_trans keyLe_total l
    have hf := hp.filter (fun b => b.slideIdx == i)
    refine hf.imp_of_mem (fun ha hb hr => ?_)
    rename_i a b
    have h1 : a.slideIdx = i := by simpa using List.of_mem_filter ha
    have h2 : b.slideIdx = i := by simpa using List.of_mem_filter hb
    simp only [keyLe, Bool.or_eq_true, decide_eq_true_eq, Bool.and_eq_true,
      beq_iff_eq, blockKey] at hr
    simp only [pairLe, topLeftOf]
    omega
  · have hsub : List.Sublist (l.filter (fun b => blockKey b == k)) (sortBlocks l) :=
      List.sublist_mergeSort keyLe_trans (fun a b => keyLe_total a b)
        (pairwise_keyLe_filter l k) (List.filter_sublist l)
    have hff : (l.filter (fun b => blockKey b == k)).filter (fun b => blockKey b == k)
        = l.filter (fun b => blockKey b == k) := by
      simp [List.filter_filter]
    have h2 := hsub.filter (fun b => blockKey b == k)
    rw [hff] at h2
    have hperm : List.Perm ((sortBlocks l).filter (fun b => blockKey b == k))
        (l.filter (fun b => blockKey b == k)) :=
      (List.mergeSort_perm l keyLe).filter (fun b => blockKey b == k)
    exact (h2.eq_of_length hperm.length_eq.symm).symm

/-- One trimmed, non-empty paragraph segment as a raw-text line: two-space
indentation per level beyond 1, a bullet for level > 0, no column tag. -/
def segLine (level : Int) (seg : String) : Option String :=
  let sg := pyStrip seg
  if sg == "" then none else some (indentOf level ++ bulletOf level ++ sg)

/-- Lines a block contributes to the raw text: a paragraph contributes
its non-empty trimmed newline segments with bullet/indent; a table
contributes one line per row, the pipe-join of the row's non-empty cells
(so a row of entirely empty cells contributes an empty line). -/
def blockLines : Block → List String
  | Block.paragraph _ _ _ _ _ level text => (paragraphSegs text).filterMap (segLine level)
  | Block.table _ _ _ _ _ rows =>
    rows.map (fun row => String.intercalate (" | ") (row.filter (fun c => c != "")))

/-- One slide's section of the whole-document raw text: a header line
`--- Slide N ---`, the title on its own line when non-empty, the lines of
the slide's blocks in the given order, and a single trailing
`[NOTES] `-prefixed line when the notes are non-empty. -/
def slideSection (blocks : List Block) (s : SlideMeta) : List String :=
  [slideHeader s.slide]
  ++ (if s.title != "" then [s.title] else [])
  ++ ((blocks.filter (fun bb => bb.slideIdx == s.slide)).flatMap blockLines)
  ++ (if s.notes != "" then [notesLine s.notes] else [])

theorem segFold_spec (level : Int) (segs : List String) (init : List String) :
    segs.foldl (segFold level) init = init ++ segs.filterMap (segLine level) := by
  induction segs generalizing init with
  | nil => simp
  | cons sgh rest ih =>
    simp only [List.foldl_cons, List.filterMap_cons]
    by_cases h : pyStrip sgh = ""
    · simp only [segFold, segLine, h]
      rw [ih]
      simp
    · have hb : (pyStrip sgh == "") = false := by simp [h]
      simp only [segFold, segLine, hb]
      rw [ih]
      simp

theorem rowFold_spec (rows : List (List String)) (init : List String) :
    rows.foldl rowFold init = init ++ rows.map (fun row =>
      String.intercalate (" | ") (row.filter (fun c => c != ""))) := by
  induction rows generalizing init with
  | nil => simp
  | cons r rest ih =>
    simp only [List.foldl_cons, List.map_cons, rowFold]
    rw [ih]
    simp

theorem blockFold_spec (bl : List Block) (init : List String) :
    bl.foldl blockFold init = init ++ bl.flatMap blockLines := by
  induction bl generalizing init with
  | nil => simp
  | cons b rest ih =>
    cases b with
    | paragraph s x y w h level text =>
      simp only [List.foldl_cons, blockFold]
      rw [segFold_spec, ih]
      simp [blockLines]
    | table s x y w h rows =>
      simp only [List.foldl_cons, blockFold]
      rw [rowFold_spec, ih]
      simp [blockLines]

theorem slideFold_spec (bs : List Block) (acc : List String) (s : SlideMeta) :
    slideFold bs acc s = acc ++ slideSection bs s := by
  rw [slideFold, slideSection, blockFold_spec]
  by_cases ht : s.title != "" <;> by_cases hn : s.notes != "" <;>
    simp [ht, hn, List.append_assoc]

theorem foldl_slideFold (bs : List Block) (ms : List SlideMeta)
    (init : List String) :
    ms.foldl (slideFold bs) init = init ++ ms.flatMap (slideSection bs) := by
  induction ms generalizing init with
  | nil => simp
  | cons m rest ih =>
    simp only [List.foldl_cons, List.flatMap_cons]
    rw [slideFold_spec, ih]
    simp [List.append_assoc]

/-- The raw text is the newline-join of the per-slide sections. -/
theorem build_raw_text_sections (ms : List SlideMeta) (bs : List Block) :
    build_raw_text ms bs
      = String.intercalate ("\n") (ms.flatMap (slideSection bs)) := by
  rw [build_raw_text, foldl_slideFold]
  simp

/-- Python `str.startswith(prefix)`. -/
def pyStartsWith (s pre : String) : Bool :=
  leadMatch pre.toList s.toList

/-- A one-slide input with a title, one paragraph block and notes. -/
def c2Meta : List SlideMeta := [⟨1, "T", "n"⟩]

/-- The single paragraph block for the C2 counterexample. -/
def c2Blocks : List Block := [Block.paragraph 1 (some 0) (some 0) none none 0 ("hello")]

/-- C2 counterexample: on a slide with a title, a paragraph and notes,
the raw text has no `[L]`/`[R]` column tag on the paragraph line, no
`Notes:` prefix (the code writes `[NOTES] `), and no `[Slide N]` title
line (the code writes a `--- Slide N ---` header and the bare title):
no line of the output starts with any of the tags the claim requires. -/
theorem build_raw_text_no_tags_counterexample :
    build_raw_text c2Meta c2Blocks = "--- Slide 1 ---\nT\nhello\n[NOTES] n"
  ∧ ((pySplit '\n' (build_raw_text c2Meta c2Blocks)).any (fun l =>
      pyStartsWith l ("[L]") || pyStartsWith l ("[R]")
        || pyStartsWith l ("Notes:") || pyStartsWith l ("[Slide"))) = false := by
  constructor
  · decide
  · decide

/-- C2 amended: the whole-document raw text is the newline-join of the
per-slide sections; each section is the header line `--- Slide N ---`,
then the title on its own line when non-empty, then — for the slide's
blocks in the given (sorted) order — each paragraph's non-empty trimmed
newline segments with bullet/indent by level and no column tag, each
table row as the pipe-join of its non-empty cells, and last a single
`[NOTES] `-prefixed line when the notes are non-empty. -/
theorem build_raw_text_format (ms : List SlideMeta) (bs : List Block) :
    build_raw_text ms bs
      = String.intercalate ("\n") (ms.flatMap (slideSection bs)) :=
  build_raw_text_sections ms bs

/-- One-slide metadata without title or notes for the C8 counterexample. -/
def c8Meta : List SlideMeta := [⟨1, "", ""⟩]

/-- A single 2-row table block whose second row is entirely empty. -/
def c8Blocks : List Block :=
  [Block.table 1 none none none none [["a", "b", "c"], ["", "", ""]]]

/-- C8 counterexample: a 2×3 table with one entirely-empty row yields
two row lines — one of them a blank line — not one: the claim that an
all-empty row is dropped entirely and never emitted as a blank line is
false of the code. -/
theorem table_empty_row_counterexample :
    build_raw_text c8Meta c8Blocks = "--- Slide 1 ---\na | b | c\n"
  ∧ pySplit '\n' (build_raw_text c8Meta c8Blocks)
      = ["--- Slide 1 ---", "a | b | c", ""]
  ∧ (pySplit '\n' (build_raw_text c8Meta c8Blocks)).length ≠ 2 := by
  refine ⟨by decide, by decide, by decide⟩

/-- C8 amended: each table row is emitted as the pipe-join (" | ") of its
non-empty cell texts, one output line per row, so a row whose cells are
all empty is emitted as an empty line rather than dropped. -/
theorem table_rows_pipe_joined (n : Nat) (x y w h : Option Int)
    (rows : List (List String)) (title notes : String) :
    build_raw_text [⟨n, title, notes⟩] [Block.table n x y w h rows]
      = String.intercalate ("\n")
          ([slideHeader n] ++ (if title != "" then [title] else [])
            ++ rows.map (fun row =>
                String.intercalate (" | ") (row.filter (fun c => c != "")))
            ++ (if notes != "" then [notesLine notes] else [])) := by
  rw [build_raw_text_sections]
  simp [slideSection, blockLines, Block.slideIdx]

theorem titleLoop_eq_find (l : List Xml) :
    titleLoop l = (match l.find? (fun sp =>
        isTitlePlaceholder sp && (sp.findChild ("p:txBody")).isSome) with
      | some sp =>
        (match sp.findChild ("p:txBody") with
         | some tx => titleTextOf tx
         | none => "")
      | none => "") := by
  induction l with
  | nil => simp [titleLoop]
  | cons sp rest ih =>
    cases hp : isTitlePlaceholder sp with
    | false => simp [titleLoop, hp, List.find?_cons, ih]
    | true =>
      rcases htx : sp.findChild ("p:txBody") with _ | tx
      · simp [titleLoop, hp, htx, List.find?_cons, ih]
      · simp [titleLoop, hp, htx, List.find?_cons]

/-- C4 amended: the detected slide title is the space-join of all
non-empty paragraph texts (stripped) of the first `p:sp` in document
order that is a title/ctrTitle placeholder and has a `p:txBody` — not
just the placeholder's first line, and regardless of whether that text is
empty; no font-size heuristic exists, so nothing else ever supplies the
title. -/
theorem slide_title_from_first_placeholder (root : Xml) :
    slideTitle root = (match (root.descNamed ("p:sp")).find? (fun sp =>
        isTitlePlaceholder sp && (sp.findChild ("p:txBody")).isSome) with
      | some sp =>
        (match sp.findChild ("p:txBody") with
         | some tx => titleTextOf tx
         | none => "")
      | none => "") := by
  rw [slideTitle, titleLoop_eq_find]

/-- One `a:p` holding one run with the given text. -/
def apNode (t : String) : Xml :=
  Xml.node ("a:p") [] none
    [Xml.node ("a:r") [] none [Xml.node ("a:t") [] (some t) []]]

/-- Non-visual properties marking a shape as an explicit title
placeholder. -/
def titlePh : Xml :=
  Xml.node ("p:nvSpPr") [] none
    [Xml.node ("p:nvPr") [] none [Xml.node ("p:ph") [("type", "title")] none []]]

/-- A title placeholder whose text body has two paragraphs. -/
def c4TitleSp : Xml :=
  Xml.node ("p:sp") [] none
    [titlePh,
     Xml.node ("p:txBody") [] none [apNode ("Hello"), apNode ("World")]]

/-- A slide whose only shape is the two-paragraph title placeholder. -/
def c4Root : Xml :=
  Xml.node ("p:sld") [] none
    [Xml.node ("p:cSld") [] none [Xml.node ("p:spTree") [] none [c4TitleSp]]]

/-- The title as claim C4 words it: the first line (first non-empty
paragraph text) of the first title/ctrTitle placeholder with non-empty
text. -/
def claimTitleC4 (root : Xml) : Option String :=
  ((root.descNamed ("p:sp")).filterMap (fun sp =>
    if isTitlePlaceholder sp then
      match sp.findChild ("p:txBody") with
      | some tx => ((tx.descNamed ("a:p")).filterMap (fun a_p =>
          let t := get_text_from_a_p a_p
          if t == "" then none else some t)).head?
      | none => none
    else none)).head?

/-- C4 counterexample: on a slide whose title placeholder holds the two
paragraphs "Hello" and "World", the code's title is the space-join
"Hello World", not the first line "Hello" the claim requires. -/
theorem slide_title_counterexample :
    slideTitle c4Root = "Hello World"
  ∧ claimTitleC4 c4Root = some ("Hello")
  ∧ "Hello World" ≠ "Hello" := by
  refine ⟨?_, ?_, by decide⟩
  · simp [slideTitle, titleLoop, isTitlePlaceholder, Xml.descNamed, Xml.descendants,
      Xml.descendants.descList, Xml.findPath3, Xml.childrenNamed, Xml.childrenOf,
      Xml.tagOf, Xml.findChild, Xml.attr, Xml.attrsOf, titleTextOf, get_text_from_a_p,
      runPartText, Xml.localTag, Xml.textOf, c4Root, c4TitleSp, apNode, titlePh,
      localName_ar, String.join, List.filterMap_cons]
    decide
  · simp [claimTitleC4, isTitlePlaceholder, Xml.descNamed, Xml.descendants,
      Xml.descendants.descList, Xml.findPath3, Xml.childrenNamed, Xml.childrenOf,
      Xml.tagOf, Xml.findChild, Xml.attr, Xml.attrsOf, get_text_from_a_p,
      runPartText, Xml.localTag, Xml.textOf, c4Root, c4TitleSp, apNode, titlePh,
      localName_ar, String.join, List.filterMap_cons]
    decide

theorem except_bind_ok {ε α β : Type} (a : α) (f : α → Except ε β) :
    (do let x ← Except.ok a; f x) = f a := rfl

theorem except_bind_error {ε α β : Type} (e : ε) (f : α → Except ε β) :
    (do let x ← Except.error e; f x) = (Except.error e : Except ε β) := rfl

theorem extractSlides_error_mem (pkg : Package) :
    ∀ (l : List (Except Unit Xml)) (idx : Nat), Except.error () ∈ l →
      extractSlides pkg l idx = .error () := by
  intro l
  induction l with
  | nil => intro idx h; cases h
  | cons s rest ih =>
    intro idx h
    rcases List.mem_cons.mp h with h1 | h2
    · rw [extractSlides, ← h1]
      rfl
    · rcases hs : parse_slide_xml s idx with e | tb
      · cases e
        rw [extractSlides, hs]
        rfl
      · rw [extractSlides, hs, except_bind_ok, ih (idx + 1) h2]
        rfl

/-- C1 amended: a package containing a slide part whose XML cannot be
parsed fails the whole extraction: `parse_slide_xml` re-raises the parse
error (there is no try/except around it) and `parse_pptx_bytes`
propagates it, so no slides array and no placeholder slide entry are
produced. -/
theorem malformed_slide_aborts (pkg : Package)
    (h : Except.error () ∈ pkg.slides) :
    parse_pptx_bytes pkg = .error () := by
  rw [parse_pptx_bytes, extractSlides_error_mem pkg pkg.slides 1 h]
  rfl

/-- A slide part with no content at all (still well-formed XML). -/
def emptySlideRoot : Xml := Xml.node ("p:sld") [] none []

/-- A three-slide package whose middle slide's XML cannot be parsed. -/
def c1Pkg : Package :=
  ⟨[.ok emptySlideRoot, .error (), .ok emptySlideRoot], fun _ => none⟩

/-- C1 counterexample: with 3 slide parts of which exactly the second is
malformed, extraction does not succeed with a 3-element slides array and
an empty placeholder — it raises, returning no output at all. -/
theorem malformed_slide_counterexample :
    c1Pkg.slides.length = 3 ∧ parse_pptx_bytes c1Pkg = .error () := by
  refine ⟨rfl, ?_⟩
  rw [parse_pptx_bytes,
    extractSlides_error_mem c1Pkg c1Pkg.slides 1 (List.Mem.tail _ (List.Mem.head _))]
  rfl

/-- A one-slide package whose only slide is malformed. -/
def c1PkgW : Package := ⟨[.error ()], fun _ => none⟩

/-- Witness for C1's amended theorem at a concrete package. -/
theorem malformed_slide_aborts_witness : parse_pptx_bytes c1PkgW = .error () :=
  malformed_slide_aborts c1PkgW (List.Mem.head _)

/-- A one-slide package whose slide parses but holds no content. -/
def pkgOk : Package := ⟨[.ok emptySlideRoot], fun _ => none⟩

theorem parse_slide_empty :
    parse_slide_xml (Except.ok emptySlideRoot) 1 = .ok ("", []) := by
  rw [parse_slide_xml, except_bind_ok]
  have h1 : findSpTree emptySlideRoot = none := by
    simp [findSpTree, Xml.descNamed, Xml.descendants, Xml.descendants.descList,
      emptySlideRoot]
  have h2 : slideTitle emptySlideRoot = "" := by
    simp [slideTitle, Xml.descNamed, Xml.descendants, Xml.descendants.descList,
      emptySlideRoot, titleLoop]
  rw [h1, h2]
  rfl

theorem parse_pkgOk :
    parse_pptx_bytes pkgOk = .ok ⟨[⟨1, "", ""⟩], [], "--- Slide 1 ---"⟩ := by
  rw [parse_pptx_bytes, show pkgOk.slides = [Except.ok emptySlideRoot] from rfl,
    extractSlides, parse_slide_empty, except_bind_ok, extractSlides, except_bind_ok,
    except_bind_ok]
  simp only [sortBlocks]
  simp [parse_notes_xml, pkgOk, build_raw_text, slideFold, blockFold, slideHeader,
    notesLine]
  rfl

/-- C5 counterexample: a successful extraction returns the result dict
with keys slides, blocks and raw_text only — no hints object (and the
module contains no regex scanning to produce one). -/
theorem no_hints_counterexample :
    parse_pptx_bytes pkgOk = .ok ⟨[⟨1, "", ""⟩], [], "--- Slide 1 ---"⟩
  ∧ outputKeys = ["slides", "blocks", "raw_text"]
  ∧ "hints" ∉ outputKeys :=
  ⟨parse_pkgOk, rfl, by decide⟩

/-- C5 amended: the output of every successful extraction is the dict
`{"slides": …, "blocks": …, "raw_text": …}`: its key list is exactly
slides, blocks, raw_text, and no hints key exists. -/
theorem output_keys_no_hints (pkg : Package) (out : Output)
    (_h : parse_pptx_bytes pkg = .ok out) :
    "hints" ∉ outputKeys ∧ outputKeys = ["slides", "blocks", "raw_text"] :=
  ⟨by decide, rfl⟩

/-- Witness for C5's amended theorem at a concrete package. -/
theorem output_keys_no_hints_witness :
    "hints" ∉ outputKeys ∧ outputKeys = ["slides", "blocks", "raw_text"] :=
  output_keys_no_hints pkgOk ⟨[⟨1, "", ""⟩], [], "--- Slide 1 ---"⟩ parse_pkgOk

/-- A slide whose shape tree holds one positioned text shape. -/
def slideRootBlk : Xml :=
  Xml.node ("p:sld") [] none
    [Xml.node ("p:cSld") [] none
      [Xml.node ("p:spTree") [] none
        [spNode ("9525") ("9525") ("9525") ("9525") ("hi")]]]

/-- A one-slide package producing exactly one paragraph block. -/
def pkgBlk : Package := ⟨[.ok slideRootBlk], fun _ => none⟩

/-- The paragraph block extracted from `pkgBlk`. -/
def blkHi : Block := Block.paragraph 1 (some 1) (some 1) (some 1) (some 1) 0 ("hi")

theorem parse_slide_blk :
    parse_slide_xml (Except.ok slideRootBlk) 1 = .ok ("", [blkHi]) := by
  rw [parse_slide_xml, except_bind_ok]
  have h1 : findSpTree slideRootBlk
      = some (Xml.node ("p:spTree") [] none
          [spNode ("9525") ("9525") ("9525") ("9525") ("hi")]) := by
    simp [findSpTree, Xml.descNamed, Xml.descendants, Xml.descendants.descList,
      slideRootBlk, spNode, Xml.childrenNamed, Xml.childrenOf, Xml.tagOf]
  have h2 : slideTitle slideRootBlk = "" := by
    simp [slideTitle, Xml.descNamed, Xml.descendants, Xml.descendants.descList,
      slideRootBlk, spNode, titleLoop, isTitlePlaceholder, Xml.findPath3,
      Xml.childrenNamed, Xml.childrenOf, Xml.tagOf]
  rw [h1]
  show (do
    let blocks ← walk_tree [spNode ("9525") ("9525") ("9525") ("9525") ("hi")] 0 0 1
    Except.ok (slideTitle slideRootBlk, blocks)) = .ok ("", [blkHi])
  rw [walk_tree_spNode, except_bind_ok, h2]
  congr 1

theorem parse_pkgBlk :
    parse_pptx_bytes pkgBlk
      = .ok ⟨[⟨1, "", ""⟩], [blkHi], "--- Slide 1 ---\nhi"⟩ := by
  rw [parse_pptx_bytes, show pkgBlk.slides = [Except.ok slideRootBlk] from rfl,
    extractSlides, parse_slide_blk, except_bind_ok, extractSlides, except_bind_ok,
    except_bind_ok]
  show (Except.ok (Output.mk [SlideMeta.mk 1 "" ""] (sortBlocks [blkHi])
      (build_raw_text [SlideMeta.mk 1 "" ""] (sortBlocks [blkHi]))) : Except Unit Output)
    = .ok ⟨[⟨1, "", ""⟩], [blkHi], "--- Slide 1 ---\nhi"⟩
  have hs : sortBlocks [blkHi] = [blkHi] := by simp [sortBlocks]
  rw [hs]
  rfl

/-- C3 counterexample: a block created by `walk_tree` carries no column
attribute at all — its dict keys are exactly type, slide, x, y, w, h,
level, text — so no left/right classification (at 45% of slide width or
otherwise) is ever assigned. -/
theorem no_column_counterexample :
    walk_tree [spNode ("9525") ("9525") ("9525") ("9525") ("hi")] 0 0 1
      = .ok [Block.paragraph 1 (some 1) (some 1) (some 1) (some 1) 0 ("hi")]
  ∧ (Block.paragraph 1 (some 1) (some 1) (some 1) (some 1) 0 ("hi")).keys
      = ["type", "slide", "x", "y", "w", "h", "level", "text"]
  ∧ "column" ∉ (Block.paragraph 1 (some 1) (some 1) (some 1) (some 1) 0 ("hi")).keys := by
  refine ⟨?_, rfl, by decide⟩
  rw [walk_tree_spNode]
  congr 1

/-- C3 amended: extraction performs no column classification: every
block of every successful extraction is a paragraph or a table whose
serialized keys are exactly type, slide, x, y, w, h, level, text or
type, slide, x, y, w, h, rows — there is no column attribute, and the
slide width is not even an input of the shape walk. -/
theorem blocks_have_no_column (pkg : Package) (out : Output)
    (_h : parse_pptx_bytes pkg = .ok out) :
    ∀ b ∈ out.blocks, "column" ∉ b.keys
      ∧ (b.keys = paragraphKeys ∨ b.keys = tableKeys) := by
  intro b _
  cases b with
  | paragraph s x y w h level text =>
    exact ⟨show "column" ∉ paragraphKeys by decide, Or.inl rfl⟩
  | table s x y w h rows =>
    exact ⟨show "column" ∉ tableKeys by decide, Or.inr rfl⟩

/-- Witness for C3's amended theorem at a concrete package and block. -/
theorem blocks_have_no_column_witness :
    "column" ∉ blkHi.keys ∧ (blkHi.keys = paragraphKeys ∨ blkHi.keys = tableKeys) :=
  blocks_have_no_column pkgBlk ⟨[⟨1, "", ""⟩], [blkHi], "--- Slide 1 ---\nhi"⟩
    parse_pkgBlk blkHi (List.Mem.head _)
